import Mathlib

/-!
Verification of the jwt-pizza-service authenticated-session and
authorization core, as described in `spec.md`.

The repository snapshot ships the test suites and callers of the
database layer (`database.test.js`, `admin.js`) but not `database.js`
itself, so each operation below is a shallow embedding modelled from
the spec's component design (sections 3, 4.2-4.5, 5 and 7), checked
against the behaviours the repository's own tests pin down.
-/

namespace JwtPizza

/-- Modelled from the spec: the closed role variant {Admin, Diner,
Franchisee} of section 3 (`model.js` is absent from the snapshot; the
tests mock it as the strings admin/diner/franchisee). -/
inductive Role where
  | admin
  | diner
  | franchisee
deriving DecidableEq, Repr

/-- Modelled from the spec: a RoleBinding is a role plus an optional
scoping object id (a franchise id for Franchisee bindings). -/
structure RoleBinding where
  role : Role
  objectId : Option Nat
deriving DecidableEq, Repr

/-- Modelled from the spec: a stored User record — id, name, unique
email, password hash (`none` when omitted from a returned value), and
role bindings. -/
structure User where
  id : Nat
  name : String
  email : String
  password : Option String
  roles : List RoleBinding
deriving DecidableEq, Repr

/-- Modelled from the spec: the tagged failure carried by every
rejected operation; the tests mock `endpointHelper.StatusCodeError`
as an error with a message and a numeric status code. -/
structure StatusCodeError where
  message : String
  statusCode : Nat
deriving DecidableEq, Repr

/-- Split a character list at every `'.'`, JavaScript
`String.prototype.split('.')` style: the empty string yields one empty
segment, and separators at the ends yield empty segments. -/
def splitDotChars : List Char → List (List Char)
  | [] => [[]]
  | c :: rest =>
    if c = '.' then
      [] :: splitDotChars rest
    else
      match splitDotChars rest with
      | [] => [[c]]
      | seg :: segs => (c :: seg) :: segs

/-- Split a string on `'.'`, the operation the spec's fragment
extraction rule starts from. -/
def splitOnDot (s : String) : List String :=
  (splitDotChars s.data).map String.mk

/-- Modelled from the spec: `DB.getTokenSignature` (absent
`database.js`), per the fragment extraction rule of section 4.3 —
split the token on `.`; if exactly 3 non-empty segments result the
fragment is the third, otherwise it is the empty string. -/
def getTokenSignature (token : String) : String :=
  let parts := splitOnDot token
  if parts.length = 3 ∧ ∀ p ∈ parts, p ≠ "" then parts.getD 2 "" else ""

/-- The session-marker store of section 3: a mapping from token
signature fragments to owning user ids (the `auth` table). -/
abbrev SessionStore := List (String × Nat)

/-- Modelled from the spec: `DB.loginUser` (absent `database.js`) —
persists the session marker `{signatureFragment -> userId}` for the
given token, as the tests pin down (`INSERT INTO auth` with the
extracted signature). -/
def loginUser (store : SessionStore) (userId : Nat) (token : String) : SessionStore :=
  (getTokenSignature token, userId) :: store

/-- Modelled from the spec: `DB.isLoggedIn` (absent `database.js`) —
true iff a session marker exists for the token's extracted fragment. -/
def isLoggedIn (store : SessionStore) (token : String) : Bool :=
  store.any fun p => p.1 = getTokenSignature token

/-- Modelled from the spec: `DB.logoutUser` (absent `database.js`) —
deletes the session markers matching the token's extracted fragment,
if any (`DELETE FROM auth WHERE token=?`). -/
def logoutUser (store : SessionStore) (token : String) : SessionStore :=
  store.filter fun p => p.1 ≠ getTokenSignature token

/-- Modelled from the spec: the Password Hasher's `hash` (absent
`database.js` calls `bcrypt.hash(plaintext, 10)`). The salted one-way
transform is abstracted as an injective tagging that records the cost
factor in bcrypt's `$2b$cost$` framing; the tag keeps the output
distinct from every plaintext, standing in for one-wayness. -/
def bcryptHash (plaintext : String) (cost : Nat) : String :=
  "$2b$" ++ toString cost ++ "$" ++ plaintext

/-- Modelled from the spec: the Password Hasher's `verify`
(`bcrypt.compare`), a comparison through the hash's own primitive. -/
def bcryptCompare (plaintext hashed : String) : Bool :=
  hashed = bcryptHash plaintext 10

/-- Modelled from the spec: `findByEmail` — the store's lookup of a
user record by its unique email. -/
def findUserByEmail (users : List User) (email : String) : Option User :=
  users.find? fun u => u.email = email

/-- Return a user record with the password field omitted, as every
returned User has `password: undefined` in the tests. -/
def stripPassword (u : User) : User :=
  { u with password := none }

/-- Modelled from the spec: `DB.getUser` / `authenticate` (absent
`database.js`) — looks up the credential by email; when a plaintext
password argument is supplied it is verified through the hasher, and
both "no such user" and "wrong password" reject identically with
`unknown user` / 404; without a password argument the record is
returned directly. -/
def getUser (users : List User) (email : String) (password : Option String) :
    Except StatusCodeError User :=
  match findUserByEmail users email with
  | none => Except.error ⟨"unknown user", 404⟩
  | some u =>
    match password with
    | none => Except.ok (stripPassword u)
    | some p =>
      if bcryptCompare p (u.password.getD "") then
        Except.ok (stripPassword u)
      else
        Except.error ⟨"unknown user", 404⟩

/-- A row of the `userRole` table: a user's role binding with its
optional scoping object id. -/
structure RoleRow where
  userId : Nat
  role : Role
  objectId : Option Nat
deriving DecidableEq, Repr

/-- A row of the `franchise` table. -/
structure FranchiseRow where
  id : Nat
  name : String
deriving DecidableEq, Repr

/-- A row of the `store` table. -/
structure StoreRow where
  id : Nat
  franchiseId : Nat
  name : String
deriving DecidableEq, Repr

/-- The relational backing store of the core: user, userRole,
franchise and store tables, plus the auto-increment counter. -/
structure PizzaState where
  users : List User
  userRoles : List RoleRow
  franchises : List FranchiseRow
  stores : List StoreRow
  nextId : Nat
deriving DecidableEq, Repr

/-- The input of `createUser`: name, email, plaintext password and
requested role bindings. -/
structure UserReq where
  name : String
  email : String
  password : String
  roles : List RoleBinding
deriving DecidableEq, Repr

/-- Modelled from the spec: `DB.addUser` / `createUser` (absent
`database.js`) — persists the user row with the hashed password
(cost factor 10), never the plaintext, inserts one role row per
binding, and returns the created User with the password omitted. -/
def addUser (st : PizzaState) (req : UserReq) : PizzaState × User :=
  let hashed := bcryptHash req.password 10
  let uid := st.nextId
  let stored : User := ⟨uid, req.name, req.email, some hashed, req.roles⟩
  ({ st with
      users := st.users ++ [stored]
      userRoles := st.userRoles ++ req.roles.map fun rb => ⟨uid, rb.role, rb.objectId⟩
      nextId := st.nextId + 1 },
   stripPassword stored)

/-- An admin reference inside a franchise creation request, carrying
the admin's email. -/
structure AdminRef where
  email : String
deriving DecidableEq, Repr

/-- The input of `createFranchise`: the franchise name and its admin
references. -/
structure FranchiseReq where
  name : String
  admins : List AdminRef
deriving DecidableEq, Repr

/-- Modelled from the spec: the admin-lookup loop at the head of
`DB.createFranchise` (absent `database.js`) — each admin email is
resolved to a stored user id before any insert; an email matching no
user rejects with `unknown user for franchise admin <email> provided`
and status 404. -/
def lookupAdmins (users : List User) : List AdminRef → Except StatusCodeError (List Nat)
  | [] => Except.ok []
  | a :: rest =>
    match findUserByEmail users a.email with
    | none =>
        Except.error
          ⟨"unknown user for franchise admin " ++ a.email ++ " provided", 404⟩
    | some u => (lookupAdmins users rest).map fun ids => u.id :: ids

/-- Modelled from the spec: `DB.createFranchise` (absent
`database.js`) — the non-transactional lookup-then-insert sequence of
the design notes: resolve every admin email first, then insert the
franchise row and one Franchisee role row per admin; an unresolved
admin rejects before anything is written. -/
def createFranchise (st : PizzaState) (req : FranchiseReq) :
    PizzaState × Except StatusCodeError Nat :=
  match lookupAdmins st.users req.admins with
  | Except.error e => (st, Except.error e)
  | Except.ok adminIds =>
    let fid := st.nextId
    ({ st with
        franchises := st.franchises ++ [⟨fid, req.name⟩]
        userRoles := st.userRoles ++ adminIds.map fun uid => ⟨uid, Role.franchisee, some fid⟩
        nextId := st.nextId + 1 },
     Except.ok fid)

/-- An observable action against the backing store's connection, used
to state the transactional boundary of section 5. -/
inductive DbOp where
  | beginTx
  | write (stmt : String)
  | commitTx
  | rollbackTx
deriving DecidableEq, Repr

/-- The delete statements `DB.deleteFranchise` issues inside its
transaction: the franchise's stores, its role rows, then the
franchise row itself — "delete franchise + cascade related rows". -/
def deleteFranchiseWrites (fid : Nat) : List String :=
  ["DELETE FROM store WHERE franchiseId=" ++ toString fid,
   "DELETE FROM userRole WHERE objectId=" ++ toString fid,
   "DELETE FROM franchise WHERE id=" ++ toString fid]

/-- The state effect of a committed franchise deletion: the franchise
row, its stores and its scoped role rows are removed. -/
def applyDeleteFranchise (st : PizzaState) (fid : Nat) : PizzaState :=
  { st with
      stores := st.stores.filter fun s => s.franchiseId ≠ fid
      userRoles := st.userRoles.filter fun r => r.objectId ≠ some fid
      franchises := st.franchises.filter fun f => f.id ≠ fid }

/-- Modelled from the spec: `DB.deleteFranchise` (absent
`database.js`) — begin transaction, all delete writes, commit; on any
write failure, rollback, leave the store unchanged, and reject with
`unable to delete franchise` / 500. `failAt` injects a fault into the
given write (`none` = every write succeeds); the returned list is the
observable connection trace. -/
def deleteFranchise (st : PizzaState) (fid : Nat) (failAt : Option (Fin 3)) :
    PizzaState × Except StatusCodeError Unit × List DbOp :=
  let writes := deleteFranchiseWrites fid
  match failAt with
  | none =>
      (applyDeleteFranchise st fid, Except.ok (),
       DbOp.beginTx :: writes.map DbOp.write ++ [DbOp.commitTx])
  | some k =>
      (st, Except.error ⟨"unable to delete franchise", 500⟩,
       DbOp.beginTx :: (writes.take k).map DbOp.write ++ [DbOp.rollbackTx])

/-- Does the user hold an unscoped Admin binding, the binding that
bypasses all scoping checks? -/
def hasUnscopedAdmin (u : User) : Bool :=
  u.roles.any fun rb => rb.role = Role.admin ∧ rb.objectId = none

/-- Does a role binding satisfy the optional scope requirement: no
scope id given, or the binding's scoping id equals it? -/
def scopeOk (rb : RoleBinding) (scopeId : Option Nat) : Bool :=
  match scopeId with
  | none => true
  | some s => rb.objectId = some s

/-- Modelled from the spec: the Authorization Guard's `authorize`
(section 4.5, not present in the snapshot) — true iff the user holds
a binding for the required role whose scoping id matches the optional
scope id, or the user holds the unscoped Admin role. -/
def authorize (u : User) (required : Role) (scopeId : Option Nat) : Bool :=
  hasUnscopedAdmin u || u.roles.any fun rb => rb.role = required ∧ scopeOk rb scopeId

/-- Modelled from the spec: `DB.getOffset` (absent `database.js`) —
the pagination helper, with the single consistent numeric return
shape the design notes ask implementers to pick: the plain number
`(currentPage - 1) * listPerPage`, as the repository's own helper
tests expect (`0`, `10`, `20`). -/
def getOffset (currentPage listPerPage : Nat) : Nat :=
  (currentPage - 1) * listPerPage

example : getTokenSignature "a.b.c" = "c" := by decide
example : getTokenSignature "invalid" = "" := by decide
example : getTokenSignature "a..c" = "" := by decide
example : getTokenSignature "a.b.c.d" = "" := by decide
example : isLoggedIn (loginUser [] 1 "h.p.sig") "h.p.sig" = true := by decide
example : isLoggedIn (logoutUser (loginUser [] 1 "h.p.sig") "h.p.sig") "h.p.sig" = false := by decide

theorem splitDotChars_eq_of_no_dot (xs : List Char) (h : '.' ∉ xs) :
    splitDotChars xs = [xs] := by
  induction xs with
  | nil => rfl
  | cons c rest ih =>
    have hc : c ≠ '.' := fun hc => h (hc ▸ List.mem_cons_self c rest)
    have hr : '.' ∉ rest := fun hm => h (List.mem_cons_of_mem c hm)
    simp only [splitDotChars, if_neg hc]
    rw [ih hr]

theorem splitDotChars_append (xs ys : List Char) (h : '.' ∉ xs) :
    splitDotChars (xs ++ '.' :: ys) = xs :: splitDotChars ys := by
  induction xs with
  | nil => simp [splitDotChars]
  | cons c rest ih =>
    have hc : c ≠ '.' := fun hc => h (hc ▸ List.mem_cons_self c rest)
    have hr : '.' ∉ rest := fun hm => h (List.mem_cons_of_mem c hm)
    simp only [List.cons_append, splitDotChars, if_neg hc, List.append_eq]
    rw [ih hr]

theorem data_append (a b : String) : (a ++ b).data = a.data ++ b.data := by
  cases a
  cases b
  rfl

theorem mk_data (s : String) : String.mk s.data = s := by
  cases s
  rfl

theorem splitOnDot_three (a b c : String)
    (ha : '.' ∉ a.data) (hb : '.' ∉ b.data) (hc : '.' ∉ c.data) :
    splitOnDot (a ++ "." ++ b ++ "." ++ c) = [a, b, c] := by
  have hdata : (a ++ "." ++ b ++ "." ++ c).data
      = a.data ++ '.' :: (b.data ++ '.' :: c.data) := by
    simp [data_append]
  rw [splitOnDot, hdata, splitDotChars_append _ _ ha, splitDotChars_append _ _ hb,
      splitDotChars_eq_of_no_dot _ hc]
  simp [mk_data]

theorem any_filter_ne (l : SessionStore) (sig : String) :
    ((l.filter fun p => p.1 ≠ sig).any fun p => p.1 = sig) = false := by
  rw [Bool.eq_false_iff]
  intro h
  rcases List.any_eq_true.mp h with ⟨p, hp, hps⟩
  have h2 := (List.mem_filter.mp hp).2
  simp only [decide_eq_true_eq] at hps
  simp only [decide_not, Bool.not_eq_true', decide_eq_false_iff_not] at h2
  exact h2 hps

theorem filter_ne_eq_self (l : SessionStore) (sig : String)
    (h : (l.any fun p => p.1 = sig) = false) :
    (l.filter fun p => p.1 ≠ sig) = l := by
  apply List.filter_eq_self.mpr
  intro p hp
  simp only [decide_not, Bool.not_eq_true', decide_eq_false_iff_not]
  intro he
  have : (l.any fun p => p.1 = sig) = true := List.any_eq_true.mpr ⟨p, hp, by simp [he]⟩
  rw [h] at this
  exact Bool.false_ne_true this

theorem scopeOk_iff (rb : RoleBinding) (s : Option Nat) :
    scopeOk rb s = true ↔ (s = none ∨ rb.objectId = s) := by
  cases s <;> simp [scopeOk]

theorem lookupAdmins_error_of_unknown (users : List User) (l : List AdminRef)
    (h : ∃ a ∈ l, findUserByEmail users a.email = none) :
    ∃ em, lookupAdmins users l =
      Except.error ⟨"unknown user for franchise admin " ++ em ++ " provided", 404⟩ := by
  induction l with
  | nil => simp at h
  | cons a rest ih =>
    cases hfind : findUserByEmail users a.email with
    | none => exact ⟨a.email, by simp [lookupAdmins, hfind]⟩
    | some u =>
      rcases h with ⟨b, hb, hnone⟩
      rcases List.mem_cons.mp hb with rfl | hmem
      · rw [hfind] at hnone
        exact absurd hnone (by simp)
      · rcases ih ⟨b, hmem, hnone⟩ with ⟨em, hem⟩
        refine ⟨em, ?_⟩
        simp [lookupAdmins, hfind, hem, Except.map]

theorem length_append (a b : String) : (a ++ b).length = a.length + b.length := by
  show (a ++ b).data.length = a.data.length + b.data.length
  rw [data_append, List.length_append]

theorem bcryptHash_length (p : String) :
    (bcryptHash p 10).length = p.length + 7 := by
  have h10 : (toString (10 : Nat)) = "10" := rfl
  have h1 : ("$2b$" : String).length = 4 := rfl
  have h2 : ("10" : String).length = 2 := rfl
  have h3 : ("$" : String).length = 1 := rfl
  simp only [bcryptHash, h10, length_append, h1, h2, h3]
  omega

theorem bcryptHash_ne_plaintext (p : String) : bcryptHash p 10 ≠ p := by
  intro h
  have := bcryptHash_length p
  rw [h] at this
  omega

/-- C1: Session round trip — for every session store, user id and
token, after `loginUser` persists the session marker for the token,
`isLoggedIn` on that token is true; after `logoutUser` revokes it,
`isLoggedIn` is false. -/
theorem session_roundtrip (store : SessionStore) (uid : Nat) (t : String) :
    isLoggedIn (loginUser store uid t) t = true ∧
    isLoggedIn (logoutUser (loginUser store uid t) t) t = false := by
  constructor
  · simp [isLoggedIn, loginUser]
  · simp only [isLoggedIn, logoutUser]
    exact any_filter_ne _ _

/-- C2: Fragment extraction — splitting the token on `.` yields the
fragment: exactly 3 non-empty segments give the third segment,
anything else gives the empty string; in particular a well-formed
`a.b.c` token yields its third part, `getTokenSignature "a.b.c" = "c"`
and `getTokenSignature "invalid" = ""`. -/
theorem token_fragment_extraction :
    (∀ token : String,
      (((splitOnDot token).length = 3 ∧ ∀ p ∈ splitOnDot token, p ≠ "") →
        getTokenSignature token = (splitOnDot token).getD 2 "") ∧
      (¬((splitOnDot token).length = 3 ∧ ∀ p ∈ splitOnDot token, p ≠ "") →
        getTokenSignature token = "")) ∧
    (∀ a b c : String, '.' ∉ a.data → '.' ∉ b.data → '.' ∉ c.data →
      a ≠ "" → b ≠ "" → c ≠ "" →
      getTokenSignature (a ++ "." ++ b ++ "." ++ c) = c) ∧
    getTokenSignature "a.b.c" = "c" ∧
    getTokenSignature "invalid" = "" := by
  refine ⟨fun token => ⟨fun h => ?_, fun h => ?_⟩, fun a b c ha hb hc hna hnb hnc => ?_,
    by decide, by decide⟩
  · rw [getTokenSignature, if_pos h]
  · rw [getTokenSignature, if_neg h]
  · rw [getTokenSignature, splitOnDot_three a b c ha hb hc]
    have hcond : ([a, b, c].length = 3 ∧ ∀ p ∈ [a, b, c], p ≠ "") := by
      refine ⟨rfl, ?_⟩
      intro p hp
      rcases List.mem_cons.mp hp with rfl | hp
      · exact hna
      rcases List.mem_cons.mp hp with rfl | hp
      · exact hnb
      rcases List.mem_cons.mp hp with rfl | hp
      · exact hnc
      · simp at hp
    rw [if_pos hcond]
    rfl

/-- C2 witness: the fragment of the concrete well-formed token
`h.p.sig` is its third segment. -/
theorem token_fragment_extraction_witness :
    getTokenSignature ("h" ++ "." ++ "p" ++ "." ++ "sig") = "sig" :=
  token_fragment_extraction.2.1 "h" "p" "sig" (by decide) (by decide) (by decide)
    (by decide) (by decide) (by decide)

/-- C3: Malformed tokens are never active — if the store never holds
an empty-string fragment and the token's fragment extraction yields
the empty string, `isLoggedIn` is false. -/
theorem malformed_token_never_active (store : SessionStore) (t : String)
    (hinv : ∀ p ∈ store, p.1 ≠ "") (hmal : getTokenSignature t = "") :
    isLoggedIn store t = false := by
  simp only [isLoggedIn]
  rw [Bool.eq_false_iff]
  intro h
  rcases List.any_eq_true.mp h with ⟨p, hp, hps⟩
  rw [hmal] at hps
  simp only [decide_eq_true_eq] at hps
  exact hinv p hp hps

/-- C3 witness: a store holding only the fragment `sig` rejects the
malformed token `invalid`. -/
theorem malformed_token_never_active_witness :
    isLoggedIn [("sig", 1)] "invalid" = false :=
  malformed_token_never_active [("sig", 1)] "invalid" (by decide) (by decide)

/-- C4: Authentication failures are indistinguishable — an email
matching no stored user and an email matching a user whose password
verification fails both make `getUser` reject with the identical
error, message `unknown user` and status 404. -/
theorem authenticate_failures_identical (users : List User) (e p : String) :
    (findUserByEmail users e = none →
      getUser users e (some p) = Except.error ⟨"unknown user", 404⟩) ∧
    (∀ u, findUserByEmail users e = some u →
      bcryptCompare p (u.password.getD "") = false →
      getUser users e (some p) = Except.error ⟨"unknown user", 404⟩) := by
  constructor
  · intro h
    simp [getUser, h]
  · intro u hu hc
    simp [getUser, hu, hc]

/-- C4 witness: with no stored users, authenticating any credentials
rejects with `unknown user` / 404. -/
theorem authenticate_failures_identical_witness :
    getUser [] "a@test.com" (some "pw") = Except.error ⟨"unknown user", 404⟩ :=
  (authenticate_failures_identical [] "a@test.com" "pw").1 rfl

/-- C5: Password confidentiality on creation — `addUser` persists the
cost-10 hash of the plaintext (which is never the plaintext itself)
and the returned User omits the password field. -/
theorem addUser_password_confidentiality (st : PizzaState) (req : UserReq) :
    (addUser st req).2.password = none ∧
    (∃ u ∈ (addUser st req).1.users,
      u.email = req.email ∧ u.password = some (bcryptHash req.password 10)) ∧
    bcryptHash req.password 10 ≠ req.password := by
  refine ⟨rfl, ⟨⟨st.nextId, req.name, req.email, some (bcryptHash req.password 10), req.roles⟩,
    ?_, rfl, rfl⟩, bcryptHash_ne_plaintext req.password⟩
  simp [addUser]

/-- C5 witness: creating the user `John` from an empty store returns
a User without a password field. -/
theorem addUser_password_confidentiality_witness :
    (addUser ⟨[], [], [], [], 1⟩ ⟨"John", "john@test.com", "pass123",
      [⟨Role.diner, none⟩]⟩).2.password = none :=
  (addUser_password_confidentiality ⟨[], [], [], [], 1⟩
    ⟨"John", "john@test.com", "pass123", [⟨Role.diner, none⟩]⟩).1

/-- C6: Revoke is idempotent — when no session marker matches the
token, `logoutUser` leaves the store unchanged, and revoking the same
token twice equals revoking it once. -/
theorem revoke_idempotent (store : SessionStore) (t : String) :
    (isLoggedIn store t = false → logoutUser store t = store) ∧
    logoutUser (logoutUser store t) t = logoutUser store t := by
  constructor
  · intro h
    simp only [isLoggedIn] at h
    simp only [logoutUser]
    exact filter_ne_eq_self _ _ h
  · simp only [logoutUser]
    exact filter_ne_eq_self _ _ (any_filter_ne _ _)

/-- C6 witness: revoking the token `a.b.c` against a store holding
only the unrelated fragment `x` changes nothing. -/
theorem revoke_idempotent_witness :
    logoutUser [("x", 1)] "a.b.c" = [("x", 1)] :=
  (revoke_idempotent [("x", 1)] "a.b.c").1 (by decide)

/-- C7: Authorization decision — `authorize` is true iff the user
holds an unscoped Admin binding or a binding for the required role
whose scoping id matches the optional scope id; a user with no
bindings is authorized for nothing, and a Franchisee scoped to a
different id than the requested one is denied. -/
theorem authorize_role_scope_admin :
    (∀ (u : User) (r : Role) (s : Option Nat), authorize u r s = true ↔
      ((∃ rb ∈ u.roles, rb.role = Role.admin ∧ rb.objectId = none) ∨
       (∃ rb ∈ u.roles, rb.role = r ∧ (s = none ∨ rb.objectId = s)))) ∧
    (∀ (u : User) (r : Role) (s : Option Nat), u.roles = [] → authorize u r s = false) ∧
    (∀ (u : User) (a b : Nat), u.roles = [⟨Role.franchisee, some a⟩] → a ≠ b →
      authorize u Role.franchisee (some b) = false) := by
  refine ⟨fun u r s => ?_, fun u r s h => ?_, fun u a b h hne => ?_⟩
  · simp [authorize, hasUnscopedAdmin, List.any_eq_true, scopeOk_iff]
  · simp [authorize, hasUnscopedAdmin, h]
  · simp [authorize, hasUnscopedAdmin, scopeOk, h, hne]

/-- C7 witness: a user holding only unscoped Admin is authorized for
a Franchisee check at scope id 5, and a Franchisee scoped to
franchise 3 is denied at scope id 5. -/
theorem authorize_role_scope_admin_witness :
    authorize ⟨1, "a", "a@x", none, [⟨Role.admin, none⟩]⟩ Role.franchisee (some 5) = true ∧
    authorize ⟨2, "f", "f@x", none, [⟨Role.franchisee, some 3⟩]⟩ Role.franchisee (some 5)
      = false := by
  constructor
  · exact (authorize_role_scope_admin.1 ⟨1, "a", "a@x", none, [⟨Role.admin, none⟩]⟩
      Role.franchisee (some 5)).mpr (Or.inl ⟨⟨Role.admin, none⟩, by simp, rfl, rfl⟩)
  · exact authorize_role_scope_admin.2.2 ⟨2, "f", "f@x", none, [⟨Role.franchisee, some 3⟩]⟩
      3 5 rfl (by decide)

/-- C8: deleteFranchise is transactional — with no write failure the
connection trace is begin, all delete writes, commit, and the deletes
are applied; when any write fails the state is unchanged, the single
aggregated failure is `unable to delete franchise` / 500, rollback is
invoked and commit never is. -/
theorem deleteFranchise_transactional (st : PizzaState) (fid : Nat) :
    (deleteFranchise st fid none =
      (applyDeleteFranchise st fid, Except.ok (),
       DbOp.beginTx :: (deleteFranchiseWrites fid).map DbOp.write ++ [DbOp.commitTx])) ∧
    (∀ k : Fin 3,
      (deleteFranchise st fid (some k)).1 = st ∧
      (deleteFranchise st fid (some k)).2.1 =
        Except.error ⟨"unable to delete franchise", 500⟩ ∧
      DbOp.rollbackTx ∈ (deleteFranchise st fid (some k)).2.2 ∧
      DbOp.commitTx ∉ (deleteFranchise st fid (some k)).2.2) := by
  refine ⟨rfl, fun k => ⟨rfl, rfl, ?_, ?_⟩⟩
  · simp [deleteFranchise]
  · intro hmem
    simp only [deleteFranchise] at hmem
    rcases List.mem_cons.mp hmem with h | h
    · exact DbOp.noConfusion h
    rcases List.mem_append.mp h with h | h
    · rcases List.mem_map.mp h with ⟨a, _, ha⟩
      exact DbOp.noConfusion ha
    · exact DbOp.noConfusion (List.mem_singleton.mp h)

/-- C8 witness: a failing first write against a one-franchise store
leaves the store unchanged. -/
theorem deleteFranchise_transactional_witness :
    (deleteFranchise ⟨[], [], [⟨1, "F"⟩], [], 2⟩ 1 (some 0)).1 = ⟨[], [], [⟨1, "F"⟩], [], 2⟩ :=
  ((deleteFranchise_transactional ⟨[], [], [⟨1, "F"⟩], [], 2⟩ 1).2 0).1

/-- C9: Pagination offset is one consistent numeric type —
`getOffset` returns the plain number `(page - 1) * perPage`; in
particular 0, 10 and 20 at pages 1, 2 and 3 of size 10. -/
theorem getOffset_plain_number :
    (∀ p n : Nat, getOffset p n = (p - 1) * n) ∧
    getOffset 1 10 = 0 ∧ getOffset 2 10 = 10 ∧ getOffset 3 10 = 20 :=
  ⟨fun _ _ => rfl, rfl, rfl, rfl⟩

/-- C10: createFranchise fails atomically on unknown admin — when
some admin email matches no stored user, `createFranchise` rejects
with a 404 error whose message starts with `unknown user`, and the
store is unchanged: no franchise row and no role row is written. -/
theorem createFranchise_unknown_admin (st : PizzaState) (req : FranchiseReq)
    (h : ∃ a ∈ req.admins, findUserByEmail st.users a.email = none) :
    (createFranchise st req).1 = st ∧
    ∃ rest, (createFranchise st req).2 = Except.error ⟨"unknown user" ++ rest, 404⟩ := by
  rcases lookupAdmins_error_of_unknown st.users req.admins h with ⟨em, hem⟩
  have hmsg : "unknown user for franchise admin " ++ em ++ " provided"
      = "unknown user" ++ (" for franchise admin " ++ em ++ " provided") := by
    have hlit : ("unknown user" : String) ++ " for franchise admin "
        = "unknown user for franchise admin " := rfl
    rw [← hlit]
    apply String.ext
    simp [data_append]
  refine ⟨by simp [createFranchise, hem], ⟨" for franchise admin " ++ em ++ " provided", ?_⟩⟩
  rw [← hmsg]
  simp [createFranchise, hem]

/-- C10 witness: with an empty user table, a franchise request naming
the admin `x@y.z` rejects and leaves the (empty) store unchanged. -/
theorem createFranchise_unknown_admin_witness :
    (createFranchise ⟨[], [], [], [], 1⟩ ⟨"F", [⟨"x@y.z"⟩]⟩).1 = ⟨[], [], [], [], 1⟩ ∧
    ∃ rest, (createFranchise ⟨[], [], [], [], 1⟩ ⟨"F", [⟨"x@y.z"⟩]⟩).2 =
      Except.error ⟨"unknown user" ++ rest, 404⟩ :=
  createFranchise_unknown_admin ⟨[], [], [], [], 1⟩ ⟨"F", [⟨"x@y.z"⟩]⟩
    ⟨⟨"x@y.z"⟩, by simp, rfl⟩

end JwtPizza
